import Mathlib

/-!
Verification of the `costuv/archive` front end (src/js) against its
natural-language specification.

The development shallowly embeds the JavaScript source:
* strings are `String`, JS `null`/`undefined`-able strings are `Option String`;
* JS truthiness tests on strings (`if (s)`) are embedded as non-emptiness,
  and on nullable strings as "present and non-empty";
* `Date` values are their epoch-millisecond instants (`Int`);
* the JSON text held by `localStorage` is represented by its parse tree
  (`JVal`), so `JSON.stringify`/`JSON.parse` of a finite tree is the
  identity on the representation, while the lossy part of serialization
  (`Date` → ISO-8601 string via `Date.prototype.toJSON`, recovered by
  `new Date(string)`) is modelled concretely by `renderISO`/`parseISO`;
* asynchronous backend calls are parameters (environment functions) and the
  performed effects are returned as explicit traces.
-/

/-! ## JS string primitives -/

/-- Embeds `String.prototype.toLowerCase` (ASCII case folding; the tags and
type names of this app are ASCII). -/
def jsToLower (s : String) : String :=
  String.mk (s.data.map Char.toLower)

/-- The WhiteSpace and LineTerminator code points trimmed by
`String.prototype.trim` (ECMA-262). -/
def jsIsWhite (c : Char) : Bool :=
  c = ' ' || c = '\t' || c = '\n' || c = '\r' ||
  c.toNat = 0x0B || c.toNat = 0x0C || c.toNat = 0xA0 || c.toNat = 0xFEFF ||
  c.toNat = 0x1680 || (0x2000 ≤ c.toNat && c.toNat ≤ 0x200A) ||
  c.toNat = 0x2028 || c.toNat = 0x2029 || c.toNat = 0x202F ||
  c.toNat = 0x205F || c.toNat = 0x3000

/-- Embeds `String.prototype.trim`. -/
def jsTrim (s : String) : String :=
  String.mk (((s.data.dropWhile jsIsWhite).reverse.dropWhile jsIsWhite).reverse)

/-- `pat` occurs as a leading segment of `l` (helper for `includes`). -/
def startsWithL : List Char → List Char → Bool
  | [], _ => true
  | _ :: _, [] => false
  | p :: ps, c :: cs => p == c && startsWithL ps cs

/-- `pat` occurs contiguously somewhere in `l` (helper for `includes`). -/
def containsSubL (pat : List Char) : List Char → Bool
  | [] => startsWithL pat []
  | c :: cs => startsWithL pat (c :: cs) || containsSubL pat cs

/-- Embeds `String.prototype.includes`: `jsIncludes s q` is `s.includes(q)`. -/
def jsIncludes (s q : String) : Bool :=
  containsSubL q.data s.data

/-! ## Data model (src/js/app.js state, src/js/api.js records)

A `FileRec` is the in-memory shape produced by `getFiles`: `title` is
non-null (`NOT NULL` in the schema), `description`, `folderId` and the URL
fields are nullable, `tags` is an array of strings. -/

structure FileRec where
  id : String
  title : String
  description : Option String
  type : String
  folderId : Option String
  tags : List String
  deriving DecidableEq, Repr

structure Folder where
  id : String
  name : String
  count : Nat
  deriving DecidableEq, Repr

/-- The filter-relevant part of `appState` in src/js/app.js. -/
structure FilterState where
  typeFilter : String
  folderFilter : Option String
  selectedTags : List String
  searchQuery : String
  deriving Repr

/-- JS truthiness of a nullable string (`if (appState.folderFilter)`):
present and non-empty. -/
def truthyOptStr : Option String → Bool
  | none => false
  | some s => !s.isEmpty

/-! ## applyFilters (src/js/app.js lines 106-140) -/

/-- Embeds `applyFilters`: starting from a copy of `appState.files`, applies
the type, folder, tag and search filters in sequence, following the four
`if` guards of the source (JS truthiness included). -/
def applyFilters (st : FilterState) (files : List FileRec) : List FileRec :=
  let filtered := files
  let filtered :=
    if st.typeFilter ≠ "all" then
      filtered.filter (fun f => f.type == st.typeFilter)
    else filtered
  let filtered :=
    if truthyOptStr st.folderFilter then
      filtered.filter (fun f => f.folderId == st.folderFilter)
    else filtered
  let filtered :=
    if st.selectedTags.length > 0 then
      filtered.filter (fun f =>
        let fileTags := f.tags
        st.selectedTags.any (fun tag => fileTags.contains tag))
    else filtered
  let filtered :=
    if !st.searchQuery.isEmpty then
      let query := jsToLower st.searchQuery
      filtered.filter (fun f =>
        let titleMatch := jsIncludes (jsToLower f.title) query
        let descMatch := jsIncludes (jsToLower (f.description.getD "")) query
        let tagMatch := f.tags.any (fun t => jsIncludes (jsToLower t) query)
        titleMatch || descMatch || tagMatch)
    else filtered
  filtered

/-- The claim's visibility predicate, written from the spec's words: type
equality unless the filter is `"all"`, folder equality unless the folder
filter is null, at least one selected tag present unless none are selected,
and a case-insensitive substring match unless the query is empty. -/
def specVisible (st : FilterState) (f : FileRec) : Prop :=
  (st.typeFilter = "all" ∨ f.type = st.typeFilter) ∧
  (st.folderFilter = none ∨ f.folderId = st.folderFilter) ∧
  (st.selectedTags = [] ∨ ∃ t ∈ st.selectedTags, t ∈ f.tags) ∧
  (st.searchQuery = "" ∨
    (jsToLower st.searchQuery).data <:+: (jsToLower f.title).data ∨
    (jsToLower st.searchQuery).data <:+: (jsToLower (f.description.getD "")).data ∨
    ∃ t ∈ f.tags, (jsToLower st.searchQuery).data <:+: (jsToLower t).data)

instance (st : FilterState) (f : FileRec) : Decidable (specVisible st f) := by
  unfold specVisible; infer_instance

/-- The claim's predicate amended for JS truthiness: a folder filter that is
the empty string is falsy, so `applyFilters` skips the folder stage for it
exactly as for `null`. -/
def amendedVisible (st : FilterState) (f : FileRec) : Prop :=
  (st.typeFilter = "all" ∨ f.type = st.typeFilter) ∧
  (st.folderFilter = none ∨ st.folderFilter = some "" ∨ f.folderId = st.folderFilter) ∧
  (st.selectedTags = [] ∨ ∃ t ∈ st.selectedTags, t ∈ f.tags) ∧
  (st.searchQuery = "" ∨
    (jsToLower st.searchQuery).data <:+: (jsToLower f.title).data ∨
    (jsToLower st.searchQuery).data <:+: (jsToLower (f.description.getD "")).data ∨
    ∃ t ∈ f.tags, (jsToLower st.searchQuery).data <:+: (jsToLower t).data)

instance (st : FilterState) (f : FileRec) : Decidable (amendedVisible st f) := by
  unfold amendedVisible; infer_instance

/-- Concrete filter state exhibiting JS falsiness of an empty-string folder
filter: `if (appState.folderFilter)` skips the folder stage for `""`. -/
def cexSt1 : FilterState := ⟨"all", some "", [], ""⟩

/-- Concrete file whose folder differs from the (empty-string) folder filter. -/
def cexFile1 : FileRec := ⟨"1", "t", none, "pdf", some "other", []⟩

/-! ## recalculateFolderCounts (src/js/api.js lines 563-575) -/

/-- Embeds the `countMap` accumulation of `recalculateFolderCounts`: the JS
object is modelled as a total map defaulting to 0 (which also absorbs the
`countMap[folder.id] || 0` read). The `if (f.folderId)` truthiness test
skips both null and empty-string folder references. -/
def countMapOf (files : List FileRec) : String → Nat :=
  files.foldl
    (fun m f =>
      match f.folderId with
      | some fid => if fid ≠ "" then (fun k => if k = fid then m fid + 1 else m k) else m
      | none => m)
    (fun _ => 0)

/-- Embeds `recalculateFolderCounts`: rebuilds every folder with the count
taken from `countMap` (0 when absent). -/
def recalculateFolderCounts (files : List FileRec) (folders : List Folder) : List Folder :=
  let countMap := countMapOf files
  folders.map (fun folder => { folder with count := countMap folder.id })

/-- The exact reference count named by the claim: the number of files whose
`folderId` equals the given folder id. -/
def refCount (files : List FileRec) (k : String) : Nat :=
  files.countP (fun f => f.folderId == some k)

/-- The files/folders portion of `appState` mutated by the CRUD handlers. -/
structure AppDataState where
  files : List FileRec
  folders : List Folder
  deriving Repr

/-- Embeds the success branch of `handleDeleteFile` (src/js/app.js 299-304):
the file is filtered out of `appState.files` and the folder counts are
recomputed from the new list. -/
def handleDeleteFileApply (st : AppDataState) (fileId : String) : AppDataState :=
  let files := st.files.filter (fun f => !(f.id == fileId))
  { files := files, folders := recalculateFolderCounts files st.folders }

/-- Embeds the create-success branch of `handleFileFormSubmit`
(src/js/app.js 388-402): the new file is unshifted onto `appState.files`
and folder counts are recomputed. -/
def handleCreateApply (st : AppDataState) (newFile : FileRec) : AppDataState :=
  let files := newFile :: st.files
  { files := files, folders := recalculateFolderCounts files st.folders }

/-- Replaces the first file whose id matches, as the `findIndex` /
`files[index] = ...` pair does in `handleFileFormSubmit`. -/
def replaceFirstById (files : List FileRec) (fileId : String)
    (merge : FileRec → FileRec) : List FileRec :=
  match files with
  | [] => []
  | f :: fs =>
    if f.id == fileId then merge f :: fs else f :: replaceFirstById fs fileId merge

/-- Embeds the update-success branch of `handleFileFormSubmit`
(src/js/app.js 372-402): the matching file is merged with the submitted
data and folder counts are recomputed. -/
def handleUpdateApply (st : AppDataState) (fileId : String)
    (merge : FileRec → FileRec) : AppDataState :=
  let files := replaceFirstById st.files fileId merge
  { files := files, folders := recalculateFolderCounts files st.folders }

/-! ## addTagToList (src/js/components.js lines 354-360) -/

/-- The canonical form a tag is stored in: `tag.trim().toLowerCase()`. -/
def jsCanon (s : String) : String := jsToLower (jsTrim s)

/-- Embeds `addTagToList`: the input is trimmed and lowercased; an empty
result (falsy `trimmed`) or an already-present tag leaves `currentTags`
unchanged, otherwise the canonical tag is pushed at the end. -/
def addTagToList (currentTags : List String) (tag : String) : List String :=
  let trimmed := jsCanon tag
  if trimmed.isEmpty || currentTags.contains trimmed then currentTags
  else currentTags ++ [trimmed]

/-! ## createFile retry policy (src/js/api.js lines 73-145)

The remote insert is modelled as an environment mapping the attempt number
to its outcome: `ok rows` is a response with data and no error (an empty
`rows` models a null/empty `data`), `err msg` is a response whose `error`
has the given message, and `exn msg` is a thrown exception. Error objects
are represented by their human-readable message, so
`error.message || JSON.stringify(error)` is modelled as the message
itself. -/

inductive InsertResp where
  | ok (rows : List String)
  | err (msg : String)
  | exn (msg : String)
  deriving DecidableEq, Repr

instance {e a : Type} [DecidableEq e] [DecidableEq a] : DecidableEq (Except e a)
  | .ok x, .ok y => if h : x = y then .isTrue (by rw [h]) else .isFalse (by simp [h])
  | .error x, .error y => if h : x = y then .isTrue (by rw [h]) else .isFalse (by simp [h])
  | .ok _, .error _ => .isFalse (by simp)
  | .error _, .ok _ => .isFalse (by simp)

/-- Embeds the permission/duplicate classification of `createFile`: the
lowercased message is tested for the four fatal substrings. -/
def isFatalMsg (msg : String) : Bool :=
  let m := jsToLower msg
  jsIncludes m "permission" || jsIncludes m "forbidden" ||
    jsIncludes m "not authorized" || jsIncludes m "duplicate"

/-- The observable outcome of the retry loop: the final result, how many
insert attempts were made, and the backoff delays (in ms) slept between
attempts, in order. -/
structure RetryOutcome where
  result : Except String String
  attempts : Nat
  delays : List Nat
  deriving DecidableEq, Repr

/-- Embeds the body of `createFile`'s `for` loop. `remaining` counts the
loop iterations still allowed (`maxAttempts + 1 - attempt`, so the loop
exits when it reaches 0), `attempt` is the current attempt number. Success
and a fatal (permission/duplicate) error return at once; a transient error,
an exception, or an empty response record `lastError` and, when the attempt
is not the last (`attempt < maxAttempts`), sleep `250 * attempt` ms before
the next attempt. When the loop exits, the last error (or
`'Unknown error'`) is reported as the failure. -/
def createFileGo (env : Nat → InsertResp) (maxAttempts : Nat) :
    Nat → Nat → Option String → RetryOutcome
  | 0, attempt, lastError =>
    { result := .error (lastError.getD "Unknown error"),
      attempts := attempt - 1, delays := [] }
  | remaining + 1, attempt, lastError =>
    match env attempt with
    | .ok [] =>
      let rest := createFileGo env maxAttempts remaining (attempt + 1)
        (some "Empty response from insert")
      if attempt < maxAttempts then
        { rest with delays := 250 * attempt :: rest.delays }
      else rest
    | .ok (r :: _) => { result := .ok r, attempts := attempt, delays := [] }
    | .err msg =>
      if isFatalMsg msg then
        { result := .error msg, attempts := attempt, delays := [] }
      else
        let rest := createFileGo env maxAttempts remaining (attempt + 1) (some msg)
        if attempt < maxAttempts then
          { rest with delays := 250 * attempt :: rest.delays }
        else rest
    | .exn msg =>
      let rest := createFileGo env maxAttempts remaining (attempt + 1) (some msg)
      if attempt < maxAttempts then
        { rest with delays := 250 * attempt :: rest.delays }
      else rest

/-- Embeds `createFile` on the remote path: `maxAttempts = 3`, starting at
attempt 1 with no last error (the stray unused variable of the source's
session logging has no observable effect and is omitted). -/
def createFile (env : Nat → InsertResp) : RetryOutcome :=
  createFileGo env 3 3 1 none

/-- Concrete insert environment: transient failures on attempts 1 and 2,
success on attempt 3. -/
def retryEnvA : Nat → InsertResp := fun n =>
  if n = 1 then .err "network flake" else if n = 2 then .err "timeout" else .ok ["row1"]

/-! ## Date serialization (platform model)

`Date` instants are epoch milliseconds. `JSON.stringify` serializes a
`Date` through `Date.prototype.toJSON`, i.e. `toISOString`, and
`getFilesFromLocalStorage` recovers it with `new Date(string)`. The
proleptic Gregorian calendar conversion is the standard civil-from-days /
days-from-civil algorithm; its correctness bounds are established by
verifying the 400 year starts of one 146097-day era by evaluation and
interpolating by monotonicity. -/

def xOf (n : Nat) : Nat := n - n/1460 + n/36524 - n/146096

def yoeOf (n : Nat) : Nat := xOf n / 365

def yearStart (y : Nat) : Nat := 365*y + y/4 - y/100

def bndOk (y : Nat) : Bool :=
  (yoeOf (yearStart y) == y) && (yoeOf (yearStart (y+1) - 1) == y)

def bndRange : Nat → Nat → Bool
  | _, 0 => true
  | lo, n+1 => bndOk lo && bndRange (lo+1) n

def civilFromDays (z0 : Int) : Int × Int × Int :=
  let z := z0 + 719468
  let era := z / 146097
  let doe := z - era * 146097
  let yoe := (doe - doe / 1460 + doe / 36524 - doe / 146096) / 365
  let y := yoe + era * 400
  let doy := doe - (365 * yoe + yoe / 4 - yoe / 100)
  let mp := (5 * doy + 2) / 153
  let d := doy - (153 * mp + 2) / 5 + 1
  let m := mp + (if mp < 10 then 3 else -9)
  (y + (if m ≤ 2 then 1 else 0), m, d)

def daysFromCivil (y m d : Int) : Int :=
  let y2 := y - (if m ≤ 2 then 1 else 0)
  let era := y2 / 400
  let yoe := y2 - era * 400
  let doy := (153 * (m + (if m > 2 then -3 else 9)) + 2) / 5 + d - 1
  let doe := yoe * 365 + yoe / 4 - yoe / 100 + doy
  era * 146097 + doe - 719468

def digitChar (n : Nat) : Char := Char.ofNat (48 + n % 10)

def digitVal (c : Char) : Nat := c.toNat - 48

def pad2 (n : Nat) : List Char := [digitChar (n / 10), digitChar n]

def pad3 (n : Nat) : List Char := [digitChar (n / 100), digitChar (n / 10), digitChar n]

def pad4 (n : Nat) : List Char :=
  [digitChar (n / 1000), digitChar (n / 100), digitChar (n / 10), digitChar n]

/-- Models `Date.prototype.toISOString` (the serialized form a `Date` takes
under `JSON.stringify`, via `Date.prototype.toJSON`) for instants whose year
lies in 0-9999: `YYYY-MM-DDTHH:mm:ss.sssZ` on the proleptic Gregorian
calendar, UTC. -/
def renderISO (t : Int) : String :=
  let days := t / 86400000
  let ms := (t % 86400000).toNat
  let c := civilFromDays days
  String.mk (pad4 c.1.toNat ++ '-' :: pad2 c.2.1.toNat ++ '-' :: pad2 c.2.2.toNat ++
    'T' :: pad2 (ms / 3600000) ++ ':' :: pad2 (ms % 3600000 / 60000) ++
    ':' :: pad2 (ms % 60000 / 1000) ++ '.' :: pad3 (ms % 1000) ++ ['Z'])

/-- Models `new Date(string)` on the ECMA-262 date-time string format
(4-digit year, UTC designator): `none` is an invalid date (`NaN`). -/
def parseISO (s : String) : Option Int :=
  match s.data with
  | [y1, y2, y3, y4, c1, mo1, mo2, c2, d1, d2, c3, h1, h2, c4, mi1, mi2, c5,
     s1, s2, c6, ms1, ms2, ms3, c7] =>
    if c1 = '-' ∧ c2 = '-' ∧ c3 = 'T' ∧ c4 = ':' ∧ c5 = ':' ∧ c6 = '.' ∧ c7 = 'Z' ∧
        ([y1, y2, y3, y4, mo1, mo2, d1, d2, h1, h2, mi1, mi2, s1, s2, ms1, ms2,
          ms3].all Char.isDigit) = true then
      let y := ((digitVal y1 * 10 + digitVal y2) * 10 + digitVal y3) * 10 + digitVal y4
      let mo := digitVal mo1 * 10 + digitVal mo2
      let d := digitVal d1 * 10 + digitVal d2
      let hh := digitVal h1 * 10 + digitVal h2
      let mi := digitVal mi1 * 10 + digitVal mi2
      let ss := digitVal s1 * 10 + digitVal s2
      let ms := (digitVal ms1 * 10 + digitVal ms2) * 10 + digitVal ms3
      if 1 ≤ mo ∧ mo ≤ 12 ∧ 1 ≤ d ∧ d ≤ 31 ∧ hh ≤ 23 ∧ mi ≤ 59 ∧ ss ≤ 59 then
        some (daysFromCivil (y : Int) (mo : Int) (d : Int) * 86400000 +
          ((hh : Int) * 3600000 + (mi : Int) * 60000 + (ss : Int) * 1000 + (ms : Int)))
      else none
    else none
  | _ => none

/-! ## localStorage model (src/js/api.js lines 472-555)

`localStorage` maps keys to JSON texts; a stored text is represented by its
parse tree `JVal`, on which `JSON.stringify`/`JSON.parse` of finite data is
the identity. Records with fields set to `undefined`/`null` are both
decoded to `none`; decoding fails (yielding the `catch`-style empty list)
on content not of the stored shape. -/

inductive JVal where
  | str (s : String)
  | num (n : Int)
  | bool (b : Bool)
  | null
  | arr (xs : List JVal)
  | obj (fields : List (String × JVal))

def Storage := String → Option JVal

def emptyStorage : Storage := fun _ => none

/-- Models `localStorage.setItem`. -/
def setItem (st : Storage) (k : String) (v : JVal) : Storage :=
  fun q => if q = k then some v else st q

/-- The shape stored by the localStorage fallback: `createFileInLocalStorage`
spreads the form's `fileData` (title, type, folder, description, tags, file
metadata) and adds `id`, `createdAt` and `updatedAt`. -/
structure StoredFile where
  id : String
  title : String
  type : String
  folderId : Option String
  folderName : Option String
  description : String
  tags : List String
  fileUrl : Option String
  thumbnailUrl : Option String
  fileName : Option String
  fileSize : Option String
  createdAt : Int
  updatedAt : Int
  deriving DecidableEq, Repr

/-- The `fileData` object assembled by `handleFileFormSubmit`. -/
structure FileData where
  title : String
  type : String
  folderId : Option String
  folderName : Option String
  description : String
  tags : List String
  fileUrl : Option String
  thumbnailUrl : Option String
  fileName : Option String
  fileSize : Option String
  deriving DecidableEq, Repr

def encodeOptStr : Option String → JVal
  | none => JVal.null
  | some s => JVal.str s

/-- JSON serialization of a stored file record; `Date` fields go through
`toISOString` (see `renderISO`). -/
def encodeFile (f : StoredFile) : JVal :=
  .obj [("id", .str f.id), ("title", .str f.title), ("type", .str f.type),
    ("folderId", encodeOptStr f.folderId), ("folderName", encodeOptStr f.folderName),
    ("description", .str f.description), ("tags", .arr (f.tags.map JVal.str)),
    ("fileUrl", encodeOptStr f.fileUrl), ("thumbnailUrl", encodeOptStr f.thumbnailUrl),
    ("fileName", encodeOptStr f.fileName), ("fileSize", encodeOptStr f.fileSize),
    ("createdAt", .str (renderISO f.createdAt)),
    ("updatedAt", .str (renderISO f.updatedAt))]

def jGet : List (String × JVal) → String → Option JVal
  | [], _ => none
  | (k, v) :: rest, q => if k = q then some v else jGet rest q

def asStr : Option JVal → Option String
  | some (.str s) => some s
  | _ => none

def asOptStr : Option JVal → Option (Option String)
  | some (.str s) => some (some s)
  | some .null => some none
  | none => some none
  | _ => none

def asStrElem : JVal → Option String
  | .str s => some s
  | _ => none

def decodeList {α : Type} (dec : JVal → Option α) : List JVal → Option (List α)
  | [] => some []
  | v :: vs =>
    match dec v, decodeList dec vs with
    | some a, some rest => some (a :: rest)
    | _, _ => none

def asStrList : Option JVal → Option (List String)
  | some (.arr xs) => decodeList asStrElem xs
  | _ => none

/-- Models `new Date(f.createdAt)` on the parsed JSON value. -/
def asDate : Option JVal → Option Int
  | some (.str s) => parseISO s
  | _ => none

def decodeFile (v : JVal) : Option StoredFile :=
  match v with
  | .obj fs =>
    match asStr (jGet fs "id"), asStr (jGet fs "title"), asStr (jGet fs "type"),
      asOptStr (jGet fs "folderId"), asOptStr (jGet fs "folderName"),
      asStr (jGet fs "description"), asStrList (jGet fs "tags"),
      asOptStr (jGet fs "fileUrl"), asOptStr (jGet fs "thumbnailUrl"),
      asOptStr (jGet fs "fileName"), asOptStr (jGet fs "fileSize"),
      asDate (jGet fs "createdAt"), asDate (jGet fs "updatedAt") with
    | some i, some t, some ty, some fid, some fn, some de, some tg, some fu,
      some tu, some fna, some fsz, some ca, some ua =>
      some ⟨i, t, ty, fid, fn, de, tg, fu, tu, fna, fsz, ca, ua⟩
    | _, _, _, _, _, _, _, _, _, _, _, _, _ => none
  | _ => none

def decodeFiles (v : JVal) : Option (List StoredFile) :=
  match v with
  | .arr xs => decodeList decodeFile xs
  | _ => none

/-- Embeds `getFilesFromLocalStorage` (api.js 472-486): missing key gives
`[]`, a parse failure gives `[]`, otherwise each record is returned with
`createdAt`/`updatedAt` rebuilt as `Date`s. -/
def getFilesFromLocalStorage (st : Storage) : List StoredFile :=
  match st "archiveFiles" with
  | none => []
  | some v =>
    match decodeFiles v with
    | some files => files
    | none => []

/-- Embeds `saveFilesToLocalStorage` (api.js 488-490). -/
def saveFilesToLocalStorage (st : Storage) (files : List StoredFile) : Storage :=
  setItem st "archiveFiles" (.arr (files.map encodeFile))

def encodeFolder (f : Folder) : JVal :=
  .obj [("id", .str f.id), ("name", .str f.name), ("count", .num f.count)]

def asNat : Option JVal → Option Nat
  | some (.num n) => if 0 ≤ n then some n.toNat else none
  | _ => none

def decodeFolder (v : JVal) : Option Folder :=
  match v with
  | .obj fs =>
    match asStr (jGet fs "id"), asStr (jGet fs "name"), asNat (jGet fs "count") with
    | some i, some n, some c => some ⟨i, n, c⟩
    | _, _, _ => none
  | _ => none

def decodeFolders (v : JVal) : Option (List Folder) :=
  match v with
  | .arr xs => decodeList decodeFolder xs
  | _ => none

/-- Embeds `getFoldersFromLocalStorage` (api.js 523-532). -/
def getFoldersFromLocalStorage (st : Storage) : List Folder :=
  match st "archiveFolders" with
  | none => []
  | some v =>
    match decodeFolders v with
    | some folders => folders
    | none => []

/-- Embeds `saveFoldersToLocalStorage` (api.js 534-536). -/
def saveFoldersToLocalStorage (st : Storage) (folders : List Folder) : Storage :=
  setItem st "archiveFolders" (.arr (folders.map encodeFolder))

/-- The merge `{...files[index], ...fileData, updatedAt: new Date()}`. -/
def mergeFileData (old : StoredFile) (fd : FileData) (now : Int) : StoredFile :=
  { id := old.id, title := fd.title, type := fd.type, folderId := fd.folderId,
    folderName := fd.folderName, description := fd.description, tags := fd.tags,
    fileUrl := fd.fileUrl, thumbnailUrl := fd.thumbnailUrl, fileName := fd.fileName,
    fileSize := fd.fileSize, createdAt := old.createdAt, updatedAt := now }

/-- The `findIndex`-then-assign pair of `updateFileInLocalStorage`. -/
def updateFirst (files : List StoredFile) (i : String) (fd : FileData) (now : Int) :
    Option (List StoredFile) :=
  match files with
  | [] => none
  | f :: fs =>
    if f.id == i then some (mergeFileData f fd now :: fs)
    else (updateFirst fs i fd now).map (f :: ·)

/-- Embeds `updateFileInLocalStorage` (api.js 505-514): a missing id returns
the `'File not found'` failure without writing; otherwise the merged list is
saved. -/
def updateFileInLocalStorage (st : Storage) (i : String) (fd : FileData) (now : Int) :
    Storage × Except String Unit :=
  match updateFirst (getFilesFromLocalStorage st) i fd now with
  | none => (st, .error "File not found")
  | some files2 => (saveFilesToLocalStorage st files2, .ok ())

/-- Embeds `deleteFileFromLocalStorage` (api.js 516-521): filters the list
and saves it back, reporting success regardless of whether the id was
present. -/
def deleteFileFromLocalStorage (st : Storage) (i : String) : Storage × Except String Unit :=
  let files := getFilesFromLocalStorage st
  (saveFilesToLocalStorage st (files.filter (fun f => !(f.id == i))), .ok ())

/-- Embeds `deleteFolderFromLocalStorage` (api.js 550-555): filters the
folders list only; the files key is never touched. -/
def deleteFolderFromLocalStorage (st : Storage) (i : String) : Storage × Except String Unit :=
  let folders := getFoldersFromLocalStorage st
  (saveFoldersToLocalStorage st (folders.filter (fun f => !(f.id == i))), .ok ())

/-- Timestamps whose UTC year is 0-9999, i.e. those `toISOString` prints in
the basic (non-expanded) ISO format modelled by `renderISO`. -/
def yearInRange (t : Int) : Prop :=
  0 ≤ (civilFromDays (t / 86400000)).1 ∧ (civilFromDays (t / 86400000)).1 < 10000

instance (t : Int) : Decidable (yearInRange t) := by
  unfold yearInRange; infer_instance

/-- Concrete stored file used by the round-trip witnesses: created at the
epoch, updated at 2023-11-14T22:13:20.000Z. -/
def sampleFile : StoredFile :=
  ⟨"id1", "Linear Algebra Notes", "pdf", some "f1", some "Math", "week 1 notes",
    ["algebra", "notes"], some "https://x/f.pdf", none, some "f.pdf", some "1.2 MB",
    0, 1700000000000⟩

/-! ## deleteFolder, remote path (src/js/api.js lines 311-331)

The client issues a delete on the `folders` row; the SQL schema shipped in
api.js declares `folder_id UUID REFERENCES public.folders(id) ON DELETE SET
NULL`, so the database nulls the folder reference of every file that
pointed at the deleted folder. The post-state of both steps is modelled
together. -/

structure RemoteDB where
  files : List FileRec
  folders : List Folder
  deriving Repr

/-- Models the remote `deleteFolder` together with the schema's
`ON DELETE SET NULL` foreign key. -/
def deleteFolder (db : RemoteDB) (i : String) : RemoteDB :=
  { folders := db.folders.filter (fun fo => !(fo.id == i)),
    files := db.files.map (fun f =>
      if f.folderId == some i then { f with folderId := none } else f) }

/-! ## signUp (src/js/auth.js lines 64-144)

The backend is an environment (profiles lookup, identity creation, profile
writes) and the calls `signUp` makes are returned as an ordered trace, so
"performs no X" is "no X action in the trace". -/

/-- One character of the username pattern class `[a-z0-9_]`. -/
def usernameCharOk (c : Char) : Bool :=
  (decide ('a' ≤ c) && decide (c ≤ 'z')) ||
    (decide ('0' ≤ c) && decide (c ≤ '9')) || decide (c = '_')

/-- Embeds `/^[a-z0-9_]{3,20}$/.test(username)`; the separate `!username`
falsiness guard of the source is subsumed by the length lower bound. -/
def validUsername (u : String) : Bool :=
  decide (3 ≤ u.length) && decide (u.length ≤ 20) && u.data.all usernameCharOk

inductive AuthAction where
  | usernameLookup (username : String)
  | createIdentity (email username : String)
  | sleep (ms : Nat)
  | profileUpsert (uid username : String)
  | profileUpdate (uid username : String)
  deriving DecidableEq, Repr

structure SignUpEnv where
  usernameTaken : String → Bool
  authSignUp : Except String (Option String × Bool)
  upsertError : Option String
  updateError : Option String

inductive SignUpRes where
  | failure (error : String)
  | successMsg (msg : String)
  | success
  deriving DecidableEq, Repr

/-- Embeds `signUp`: validate the username pattern, check uniqueness in
`profiles`, create the identity, then best-effort write the profile (500ms
delay, upsert, fallback update whose own error is only logged); a created
user without a session yields the email-confirmation message. -/
def signUp (env : SignUpEnv) (email password username : String) :
    SignUpRes × List AuthAction :=
  if validUsername username = false then
    (.failure "Username must be 3-20 lowercase characters (letters, numbers, underscores only)",
      [])
  else
    let uname := jsToLower username
    if env.usernameTaken uname then
      (.failure "Username is already taken", [.usernameLookup uname])
    else
      match env.authSignUp with
      | .error msg =>
        (.failure msg, [.usernameLookup uname, .createIdentity email uname])
      | .ok (userId, hasSession) =>
        match userId with
        | some uid =>
          let tr :=
            [AuthAction.usernameLookup uname, .createIdentity email uname,
              .sleep 500, .profileUpsert uid uname] ++
            (match env.upsertError with
              | some _ => [AuthAction.profileUpdate uid uname]
              | none => [])
          if hasSession = false then
            (.successMsg "Please check your email to confirm your account", tr)
          else (.success, tr)
        | none => (.success, [.usernameLookup uname, .createIdentity email uname])

/-- Concrete sign-up environment where only `taken_name` exists in the
profiles table and identity creation would succeed. -/
def authEnvA : SignUpEnv :=
  ⟨fun u => u == "taken_name", .ok (some "uid1", true), none, none⟩

/-! ## formatFileSize (src/js/api.js lines 460-466) -/

/-- The unit labels `['Bytes', 'KB', 'MB', 'GB']`. -/
def sizes : List String := ["Bytes", "KB", "MB", "GB"]

/-- The numeric part `parseFloat((bytes / Math.pow(k, i)).toFixed(1))`,
modelled with exact integer arithmetic at one fractional digit (a trailing
`.0` is dropped, as `parseFloat` does). -/
def numPart (bytes : Nat) : String :=
  let i := Nat.log 1024 bytes
  let scaled := bytes * 10 / 1024 ^ i
  toString (scaled / 10) ++
    (if scaled % 10 = 0 then "" else "." ++ toString (scaled % 10))

/-- Embeds `formatFileSize`. The float index
`Math.floor(Math.log(bytes) / Math.log(1024))` is modelled exactly as the
integer logarithm `Nat.log 1024 bytes`; an out-of-bounds `sizes[i]` is the
JS `undefined`, which string concatenation renders as `"undefined"`. -/
def formatFileSize (bytes : Nat) : String :=
  if bytes = 0 then "0 Bytes"
  else numPart bytes ++ " " ++ ((sizes.get? (Nat.log 1024 bytes)).getD "undefined")

/-- Concrete app state for the folder-count witness: two files in folder
`f2`, one of which (`id 1`) is about to be deleted; the stale stored count
is 99. -/
def c3st : AppDataState :=
  ⟨[⟨"a", "A", none, "pdf", some "f2", []⟩, ⟨"1", "B", none, "pdf", some "f2", []⟩],
    [⟨"f2", "Science", 99⟩]⟩

/-- Concrete remote database for the folder-deletion witness. -/
def c7db : RemoteDB :=
  ⟨[⟨"a", "A", none, "pdf", some "f1", []⟩], [⟨"f1", "Math", 1⟩]⟩

/-! ## Lemmas and claim theorems -/

lemma startsWithL_iff (p l : List Char) : startsWithL p l = true ↔ p <+: l := by
  induction p generalizing l with
  | nil => simp [startsWithL]
  | cons a as ih =>
    cases l with
    | nil => simp [startsWithL]
    | cons b bs => simp [startsWithL, List.cons_prefix_cons, ih]

lemma containsSubL_iff (p l : List Char) : containsSubL p l = true ↔ p <:+: l := by
  induction l with
  | nil =>
    cases p <;> simp [containsSubL, startsWithL]
  | cons b bs ih =>
    simp [containsSubL, startsWithL_iff, ih, List.infix_cons_iff]

lemma jsIncludes_iff (s q : String) : jsIncludes s q = true ↔ q.data <:+: s.data :=
  containsSubL_iff q.data s.data

lemma isEmpty_eq_false_iff (s : String) : (s.isEmpty = false) ↔ s ≠ "" := by
  rw [Bool.eq_false_iff, ne_eq, String.isEmpty_iff]

set_option maxHeartbeats 2000000 in
/-- Membership bridge for `applyFilters`: the chain of filter stages keeps
exactly the input files satisfying `amendedVisible`. -/
lemma mem_applyFilters (st : FilterState) (files : List FileRec) (f : FileRec) :
    f ∈ applyFilters st files ↔ f ∈ files ∧ amendedVisible st f := by
  unfold applyFilters amendedVisible
  rcases hff : st.folderFilter with _ | s
  · by_cases h1 : st.typeFilter = "all" <;>
    by_cases h3 : st.selectedTags = [] <;>
    by_cases h4 : st.searchQuery = "" <;>
    simp_all [List.mem_filter, truthyOptStr, jsIncludes_iff, List.length_pos,
      String.isEmpty_iff, isEmpty_eq_false_iff, and_assoc, List.any_eq_true] <;>
    tauto
  · by_cases hs : s = "" <;>
    by_cases h1 : st.typeFilter = "all" <;>
    by_cases h3 : st.selectedTags = [] <;>
    by_cases h4 : st.searchQuery = "" <;>
    simp_all [List.mem_filter, truthyOptStr, jsIncludes_iff, List.length_pos,
      String.isEmpty_iff, isEmpty_eq_false_iff, and_assoc, List.any_eq_true] <;>
    tauto

/-- C1, counterexample: with the folder filter set to the empty string (which
is not `null`), `applyFilters` keeps a file whose `folderId` differs from the
filter, so the result is not the intersection of the four claimed
predicates. -/
theorem C1_counterexample :
    cexFile1 ∈ applyFilters cexSt1 [cexFile1] ∧ ¬ specVisible cexSt1 cexFile1 := by
  decide

/-- C1 (amended): `applyFilters` computes the visible subset as the
intersection of the four predicates, where the folder-equality predicate is
waived when the folder filter is null or the empty string (JS falsiness). -/
theorem C1_applyFilters_amended (st : FilterState) (files : List FileRec) (f : FileRec) :
    f ∈ applyFilters st files ↔ f ∈ files ∧ amendedVisible st f :=
  mem_applyFilters st files f

/-- C2: every file kept by `applyFilters` is an element of the input list. -/
theorem C2_applyFilters_subset (st : FilterState) (files : List FileRec) (f : FileRec)
    (hf : f ∈ applyFilters st files) : f ∈ files :=
  ((mem_applyFilters st files f).mp hf).1

/-- C2, witness: a concrete file kept by a concrete filter state. -/
theorem C2_applyFilters_subset_witness :
    cexFile1 ∈ applyFilters cexSt1 [cexFile1] ∧ cexFile1 ∈ [cexFile1] :=
  ⟨by decide, C2_applyFilters_subset cexSt1 [cexFile1] cexFile1 (by decide)⟩

lemma countMapOf_go (files : List FileRec) (k : String) (m : String → Nat) :
    (files.foldl
      (fun m f =>
        match f.folderId with
        | some fid => if fid ≠ "" then (fun k => if k = fid then m fid + 1 else m k) else m
        | none => m)
      m) k = m k + (if k = "" then 0 else refCount files k) := by
  induction files generalizing m with
  | nil => simp [refCount]
  | cons f fs ih =>
    rcases hf : f.folderId with _ | fid
    · simp only [List.foldl_cons, hf]
      rw [ih]
      simp [refCount, List.countP_cons, hf]
    · by_cases hfid : fid = ""
      · subst hfid
        simp only [List.foldl_cons, hf, if_neg (by decide : ¬("" ≠ ""))]
        rw [ih]
        by_cases hk : k = ""
        · simp [refCount, List.countP_cons, hf, hk]
        · simp [refCount, List.countP_cons, hf, hk, Ne.symm hk]
      · simp only [List.foldl_cons, hf, if_pos hfid]
        rw [ih]
        by_cases hk : k = fid
        · subst hk
          simp [refCount, List.countP_cons, hf, hfid]
          omega
        · simp only [if_neg hk]
          by_cases hk0 : k = "" <;>
            simp [refCount, List.countP_cons, hf, hk, hk0, Ne.symm hk]

lemma countMapOf_spec (files : List FileRec) (k : String) :
    countMapOf files k = if k = "" then 0 else refCount files k := by
  have h := countMapOf_go files k (fun _ => 0)
  simpa [countMapOf] using h

/-- C3, counterexample: a file whose `folderId` is the empty string is falsy
for `if (f.folderId)`, so it is never counted; a folder whose id is the
empty string therefore gets count 0 although exactly one file references
it. -/
theorem C3_counterexample :
    recalculateFolderCounts [⟨"1", "t", none, "pdf", some "", []⟩] [⟨"", "odd", 7⟩] =
      [⟨"", "odd", 0⟩] ∧
    refCount [⟨"1", "t", none, "pdf", some "", []⟩] "" = 1 := by
  decide

/-- C3 (amended): `recalculateFolderCounts` returns the same folders where
each folder with a non-empty id gets exactly the number of files whose
`folderId` equals its id (files with a null, absent or empty-string folder
reference count toward no folder, and a folder with the empty-string id gets
count 0); and each CRUD handler (create, update, delete) recomputes the
counts so the invariant holds on its resulting state. -/
theorem C3_recalculateFolderCounts_amended (files : List FileRec) (folders : List Folder) :
    recalculateFolderCounts files folders =
      folders.map (fun fo =>
        { fo with count := if fo.id = "" then 0 else refCount files fo.id }) ∧
    (∀ st : AppDataState, ∀ fileId : String,
      ∀ fo ∈ (handleDeleteFileApply st fileId).folders,
        fo.count = if fo.id = "" then 0
          else refCount (handleDeleteFileApply st fileId).files fo.id) ∧
    (∀ st : AppDataState, ∀ newFile : FileRec,
      ∀ fo ∈ (handleCreateApply st newFile).folders,
        fo.count = if fo.id = "" then 0
          else refCount (handleCreateApply st newFile).files fo.id) ∧
    (∀ st : AppDataState, ∀ fileId : String, ∀ merge : FileRec → FileRec,
      ∀ fo ∈ (handleUpdateApply st fileId merge).folders,
        fo.count = if fo.id = "" then 0
          else refCount (handleUpdateApply st fileId merge).files fo.id) := by
  have hmain : ∀ (fs : List FileRec) (fl : List Folder),
      recalculateFolderCounts fs fl =
        fl.map (fun fo => { fo with count := if fo.id = "" then 0 else refCount fs fo.id }) := by
    intro fs fl
    unfold recalculateFolderCounts
    refine List.map_congr_left ?_
    intro fo _
    rw [countMapOf_spec]
  have hmem : ∀ (fs : List FileRec) (fl : List Folder),
      ∀ fo ∈ recalculateFolderCounts fs fl,
        fo.count = if fo.id = "" then 0 else refCount fs fo.id := by
    intro fs fl fo hfo
    rw [hmain] at hfo
    obtain ⟨fo0, _, rfl⟩ := List.mem_map.mp hfo
    rfl
  refine ⟨hmain files folders, ?_, ?_, ?_⟩
  · intro st fileId fo hfo
    exact hmem _ _ fo hfo
  · intro st newFile fo hfo
    exact hmem _ _ fo hfo
  · intro st fileId merge fo hfo
    exact hmem _ _ fo hfo

lemma jsCanon_of_all_white (s : String) (h : ∀ c ∈ s.data, jsIsWhite c = true) :
    jsCanon s = "" := by
  unfold jsCanon jsTrim jsToLower
  rw [List.dropWhile_eq_nil_iff.mpr h]
  rfl

lemma addTagToList_cases (l : List String) (s : String) :
    addTagToList l s = l ∨ (jsCanon s ∉ l ∧ jsCanon s ≠ "" ∧ addTagToList l s = l ++ [jsCanon s]) := by
  unfold addTagToList
  by_cases he : (jsCanon s).isEmpty
  · simp [he]
  · by_cases hm : jsCanon s ∈ l
    · simp [he, hm]
    · refine Or.inr ⟨hm, ?_, by simp [he, hm]⟩
      simpa [String.isEmpty_iff] using he

/-- C4: adding a tag stores it trimmed and lowercased, adding an empty or
whitespace-only string leaves the list unchanged, and adding two strings
with the same canonical (trimmed, lowercased) form to a duplicate-free tag
list yields exactly one entry for that canonical tag. -/
theorem C4_addTagToList_idempotent (l : List String) (s sB : String)
    (hnd : l.Nodup) (hss : jsCanon s = jsCanon sB) :
    ((∀ c ∈ s.data, jsIsWhite c = true) → addTagToList l s = l) ∧
    (addTagToList l s = l ∨ addTagToList l s = l ++ [jsCanon s]) ∧
    (jsCanon s ≠ "" →
      (addTagToList (addTagToList l s) sB).count (jsCanon s) = 1) := by
  refine ⟨?_, ?_, ?_⟩
  · intro hw
    unfold addTagToList
    simp [jsCanon_of_all_white s hw]
    intro h
    exact absurd h (by decide)
  · rcases addTagToList_cases l s with h | ⟨_, _, h⟩
    · exact Or.inl h
    · exact Or.inr h
  · intro hne
    by_cases hm : jsCanon s ∈ l
    · have h1 : addTagToList l s = l := by
        unfold addTagToList
        simp [hm]
      have h2 : addTagToList l sB = l := by
        unfold addTagToList
        rw [← hss]
        simp [hm]
      rw [h1, h2]
      exact List.count_eq_one_of_mem hnd hm
    · have h1 : addTagToList l s = l ++ [jsCanon s] := by
        unfold addTagToList
        simp [hm, String.isEmpty_iff, hne]
      have h2 : addTagToList (l ++ [jsCanon s]) sB = l ++ [jsCanon s] := by
        unfold addTagToList
        rw [← hss]
        simp
      rw [h1, h2, List.count_append]
      rw [List.count_eq_zero.mpr hm]
      simp

/-- C4, witness: concrete inputs discharging the hypotheses of the
idempotence theorem. -/
theorem C4_addTagToList_idempotent_witness :
    (["x"] : List String).Nodup ∧ jsCanon " Math " = jsCanon "math" ∧
    jsCanon " Math " ≠ "" ∧
    (addTagToList (addTagToList ["x"] " Math ") "math").count (jsCanon " Math ") = 1 :=
  ⟨by decide, by decide, by decide,
    (C4_addTagToList_idempotent ["x"] " Math " "math" (by decide) (by decide)).2.2
      (by decide)⟩

lemma createFileGo_spec (env : Nat → InsertResp) (m : Nat) :
    ∀ (remaining a : Nat) (l : Option String), 1 ≤ a → a + remaining = m + 1 →
      a - 1 ≤ (createFileGo env m remaining a l).attempts ∧
      (1 ≤ remaining → a ≤ (createFileGo env m remaining a l).attempts) ∧
      (createFileGo env m remaining a l).attempts ≤ m ∧
      (createFileGo env m remaining a l).delays =
        (List.range' a ((createFileGo env m remaining a l).attempts - a)).map
          (fun i => 250 * i) := by
  intro remaining
  induction remaining with
  | zero =>
    intro a l ha ham
    simp [createFileGo]
    omega
  | succ rem ih =>
    intro a l ha ham
    rcases henv : env a with rows | msg | msg
    · rcases rows with _ | ⟨r, rs⟩
      · obtain ⟨h1, h2, h3, h4⟩ :=
          ih (a + 1) (some "Empty response from insert") (by omega) (by omega)
        by_cases hlast : a < m
        · have hk := h2 (by omega)
          simp only [createFileGo, henv, if_pos hlast]
          refine ⟨by omega, fun _ => by omega, h3, ?_⟩
          rw [h4]
          have hsplit :
              (createFileGo env m rem (a + 1) (some "Empty response from insert")).attempts - a
              = ((createFileGo env m rem (a + 1) (some "Empty response from insert")).attempts
                  - (a + 1)) + 1 := by omega
          rw [hsplit, List.range'_succ]
          simp
        · have hrem : rem = 0 := by omega
          subst hrem
          simp only [createFileGo, henv, if_neg hlast]
          simp only [createFileGo] at h1 h3 h4 ⊢
          refine ⟨by omega, fun _ => by simp; try omega, by simp; try omega, by simp; try omega⟩
      · simp only [createFileGo, henv]
        refine ⟨by omega, fun _ => by omega, by omega, by simp⟩
    · by_cases hfatal : isFatalMsg msg
      · simp only [createFileGo, henv, if_pos hfatal]
        refine ⟨by omega, fun _ => by omega, by omega, by simp⟩
      · obtain ⟨h1, h2, h3, h4⟩ := ih (a + 1) (some msg) (by omega) (by omega)
        by_cases hlast : a < m
        · have hk := h2 (by omega)
          simp only [createFileGo, henv, if_neg hfatal, if_pos hlast]
          refine ⟨by omega, fun _ => by omega, h3, ?_⟩
          rw [h4]
          have hsplit : (createFileGo env m rem (a + 1) (some msg)).attempts - a
              = ((createFileGo env m rem (a + 1) (some msg)).attempts - (a + 1)) + 1 := by
            omega
          rw [hsplit, List.range'_succ]
          simp
        · have hrem : rem = 0 := by omega
          subst hrem
          simp only [createFileGo, henv, if_neg hfatal, if_neg hlast]
          simp only [createFileGo] at h1 h3 h4 ⊢
          refine ⟨by omega, fun _ => by simp; try omega, by simp; try omega, by simp; try omega⟩
    · obtain ⟨h1, h2, h3, h4⟩ := ih (a + 1) (some msg) (by omega) (by omega)
      by_cases hlast : a < m
      · have hk := h2 (by omega)
        simp only [createFileGo, henv, if_pos hlast]
        refine ⟨by omega, fun _ => by omega, h3, ?_⟩
        rw [h4]
        have hsplit : (createFileGo env m rem (a + 1) (some msg)).attempts - a
            = ((createFileGo env m rem (a + 1) (some msg)).attempts - (a + 1)) + 1 := by
          omega
        rw [hsplit, List.range'_succ]
        simp
      · have hrem : rem = 0 := by omega
        subst hrem
        simp only [createFileGo, henv, if_neg hlast]
        simp only [createFileGo] at h1 h3 h4 ⊢
        refine ⟨by omega, fun _ => by simp; try omega, by simp; try omega, by simp; try omega⟩

/-- C5: `createFile` makes at most 3 attempts with delays of 250ms times
the attempt number between attempts; a fatal (permission/forbidden/not
authorized/duplicate) error message aborts at once with no further
attempts; transient failures on attempts 1-2 followed by success on
attempt 3 give overall success with the created row; three transient
failures give overall failure carrying the last error. -/
theorem C5_createFile_retry_policy (env : Nat → InsertResp) :
    (1 ≤ (createFile env).attempts ∧ (createFile env).attempts ≤ 3 ∧
      (createFile env).delays =
        (List.range' 1 ((createFile env).attempts - 1)).map (fun i => 250 * i)) ∧
    (∀ msg, env 1 = .err msg → isFatalMsg msg = true →
      createFile env = ⟨.error msg, 1, []⟩) ∧
    (∀ m1 m2, env 1 = .err m1 → isFatalMsg m1 = false →
      env 2 = .err m2 → isFatalMsg m2 = true →
      createFile env = ⟨.error m2, 2, [250]⟩) ∧
    (∀ m1 m2 r rs, env 1 = .err m1 → isFatalMsg m1 = false →
      env 2 = .err m2 → isFatalMsg m2 = false → env 3 = .ok (r :: rs) →
      createFile env = ⟨.ok r, 3, [250, 500]⟩) ∧
    (∀ m1 m2 m3, env 1 = .err m1 → isFatalMsg m1 = false →
      env 2 = .err m2 → isFatalMsg m2 = false →
      env 3 = .err m3 → isFatalMsg m3 = false →
      createFile env = ⟨.error m3, 3, [250, 500]⟩) := by
  refine ⟨?_, ?_, ?_, ?_, ?_⟩
  · obtain ⟨h1, h2, h3, h4⟩ := createFileGo_spec env 3 3 1 none (by omega) (by omega)
    exact ⟨h2 (by omega), h3, h4⟩
  · intro msg h1 hf
    simp [createFile, createFileGo, h1, hf]
  · intro m1 m2 h1 hf1 h2 hf2
    simp [createFile, createFileGo, h1, hf1, h2, hf2]
  · intro m1 m2 r rs h1 hf1 h2 hf2 h3
    simp [createFile, createFileGo, h1, hf1, h2, hf2, h3]
  · intro m1 m2 m3 h1 hf1 h2 hf2 h3 hf3
    simp [createFile, createFileGo, h1, hf1, h2, hf2, h3, hf3]

/-- C5, witness: on the concrete environment the retry loop succeeds at
attempt 3 after sleeping 250ms and then 500ms. -/
theorem C5_createFile_retry_policy_witness :
    createFile retryEnvA = ⟨.ok "row1", 3, [250, 500]⟩ :=
  (C5_createFile_retry_policy retryEnvA).2.2.2.1 "network flake" "timeout" "row1" []
    rfl (by decide) rfl (by decide) rfl

set_option maxRecDepth 4000 in
lemma bndAll : bndRange 0 400 = true := by decide

lemma bndRange_spec : ∀ (n lo : Nat), bndRange lo n = true → ∀ i < n, bndOk (lo + i) = true := by
  intro n
  induction n with
  | zero => intro lo _ i hi; omega
  | succ m ih =>
    intro lo h i hi
    rw [bndRange] at h
    rcases (Bool.and_eq_true _ _).mp h with ⟨h1, h2⟩
    cases i with
    | zero => simpa using h1
    | succ j =>
      have := ih (lo + 1) h2 j (by omega)
      simpa [Nat.add_assoc, Nat.add_comm 1 j] using this

lemma bndOk_spec (y : Nat) (hy : y < 400) :
    yoeOf (yearStart y) = y ∧ yoeOf (yearStart (y+1) - 1) = y := by
  have h := bndRange_spec 400 0 bndAll y hy
  simp only [Nat.zero_add, bndOk, Bool.and_eq_true, beq_iff_eq] at h
  exact h

lemma xOf_mono {a b : Nat} (h : a ≤ b) : xOf a ≤ xOf b := by
  induction b with
  | zero => simp_all
  | succ m ih =>
    rcases Nat.lt_or_ge a (m+1) with h1 | h1
    · have := ih (by omega)
      have hstep : xOf m ≤ xOf (m+1) := by unfold xOf; omega
      omega
    · have : a = m + 1 := by omega
      subst this
      exact Nat.le_refl _

lemma yearStart_step (y : Nat) :
    yearStart y + 365 ≤ yearStart (y+1) ∧ yearStart (y+1) ≤ yearStart y + 366 := by
  unfold yearStart; omega

lemma yoe_in_year (y n : Nat) (hy : y < 400) (h1 : yearStart y ≤ n)
    (h2 : n ≤ yearStart (y+1) - 1) : yoeOf n = y := by
  obtain ⟨hb1, hb2⟩ := bndOk_spec y hy
  have hm1 : xOf (yearStart y) ≤ xOf n := xOf_mono h1
  have hm2 : xOf n ≤ xOf (yearStart (y+1) - 1) := xOf_mono h2
  unfold yoeOf at hb1 hb2 ⊢
  omega

lemma year_exists (n : Nat) (h : n < 146096) :
    ∃ y, y < 400 ∧ yearStart y ≤ n ∧ n + 1 ≤ yearStart (y+1) := by
  induction n with
  | zero => exact ⟨0, by omega, by simp [yearStart], by simp [yearStart]⟩
  | succ m ih =>
    obtain ⟨y, hy, hs1, hs2⟩ := ih (by omega)
    rcases Nat.lt_or_ge (m + 1) (yearStart (y+1)) with hc | hc
    · exact ⟨y, hy, by omega, by omega⟩
    · have hm1 : m + 1 = yearStart (y + 1) := by omega
      have hy400 : y + 1 < 400 := by
        by_contra hcon
        have : y + 1 = 400 := by omega
        rw [this] at hm1
        have : yearStart 400 = 146096 := by decide
        omega
      refine ⟨y + 1, hy400, by omega, ?_⟩
      have := yearStart_step (y + 1)
      omega

lemma civil_bounds_nat (n : Nat) (h : n < 146097) :
    yoeOf n ≤ 399 ∧ yearStart (yoeOf n) ≤ n ∧ n - yearStart (yoeOf n) ≤ 365 := by
  rcases Nat.lt_or_ge n 146096 with h1 | h1
  · obtain ⟨y, hy, hs1, hs2⟩ := year_exists n h1
    have hyoe := yoe_in_year y n hy hs1 (by omega)
    rw [hyoe]
    have := yearStart_step y
    omega
  · have : n = 146096 := by omega
    subst this
    refine ⟨by decide, by decide, by decide⟩

lemma civil_bounds_int (doe : Int) (h0 : 0 ≤ doe) (h1 : doe < 146097) :
    0 ≤ (doe - doe / 1460 + doe / 36524 - doe / 146096) / 365 ∧
    (doe - doe / 1460 + doe / 36524 - doe / 146096) / 365 ≤ 399 ∧
    0 ≤ doe - (365 * ((doe - doe / 1460 + doe / 36524 - doe / 146096) / 365) +
      ((doe - doe / 1460 + doe / 36524 - doe / 146096) / 365) / 4 -
      ((doe - doe / 1460 + doe / 36524 - doe / 146096) / 365) / 100) ∧
    doe - (365 * ((doe - doe / 1460 + doe / 36524 - doe / 146096) / 365) +
      ((doe - doe / 1460 + doe / 36524 - doe / 146096) / 365) / 4 -
      ((doe - doe / 1460 + doe / 36524 - doe / 146096) / 365) / 100) ≤ 365 := by
  obtain ⟨n, rfl⟩ : ∃ n : Nat, doe = (n : Int) := ⟨doe.toNat, by omega⟩
  have e5 : ((n : Int) - (n : Int)/1460 + (n : Int)/36524 - (n : Int)/146096)/365
      = ((yoeOf n : Nat) : Int) := by
    have e4 : ((n : Int) - (n : Int)/1460 + (n : Int)/36524 - (n : Int)/146096)
        = ((xOf n : Nat) : Int) := by
      unfold xOf; omega
    rw [e4]
    unfold yoeOf; omega
  rw [e5]
  have hn := civil_bounds_nat n (by omega)
  unfold yearStart at hn
  omega

lemma daysFromCivil_civilFromDays (z : Int) :
    daysFromCivil (civilFromDays z).1 (civilFromDays z).2.1 (civilFromDays z).2.2 = z := by
  unfold civilFromDays daysFromCivil
  dsimp only
  set z1 := z + 719468 with hz1
  set era := z1 / 146097 with hera
  set doe := z1 - era * 146097 with hdoe
  set yoe := (doe - doe / 1460 + doe / 36524 - doe / 146096) / 365 with hyoe
  set doy := doe - (365 * yoe + yoe / 4 - yoe / 100) with hdoy
  set mp := (5 * doy + 2) / 153 with hmp
  set d := doy - (153 * mp + 2) / 5 + 1 with hd
  have hb := civil_bounds_int doe (by omega) (by omega)
  rw [← hyoe, ← hdoy] at hb
  have hmpb : 0 ≤ mp ∧ mp ≤ 11 := by rw [hmp]; omega
  set m := mp + (if mp < 10 then 3 else -9) with hm
  have hmb : (1 ≤ m ∧ m ≤ 12) ∧ ((m ≤ 2) ↔ ¬ mp < 10) := by
    rw [hm]; split_ifs <;> omega
  have hdoy2 : (153 * (m + (if m > 2 then -3 else 9)) + 2) / 5 + d - 1 = doy := by
    rw [hd, hm]
    split_ifs <;> omega
  have hycancel : ∀ w : Int, w + era * 400 - era * 400 = w := by intro w; ring
  split_ifs with h1 h2 h2
  · exact absurd h2 (by omega)
  · rw [if_neg h2] at hdoy2
    have hk : (yoe + era * 400 + 1 - 1) / 400 = era := by omega
    have hy2 : yoe + era * 400 + 1 - 1 - era * 400 = yoe := by ring
    rw [hdoy2, hk, hy2]
    omega
  · rw [if_pos h2] at hdoy2
    have hk : (yoe + era * 400 + 0 - 0) / 400 = era := by omega
    have hy2 : yoe + era * 400 + 0 - 0 - era * 400 = yoe := by ring
    rw [hdoy2, hk, hy2]
    omega
  · omega

lemma civilFromDays_ranges (z : Int) :
    1 ≤ (civilFromDays z).2.1 ∧ (civilFromDays z).2.1 ≤ 12 ∧
    1 ≤ (civilFromDays z).2.2 ∧ (civilFromDays z).2.2 ≤ 31 := by
  unfold civilFromDays
  dsimp only
  set z1 := z + 719468 with hz1
  set era := z1 / 146097 with hera
  set doe := z1 - era * 146097 with hdoe
  set yoe := (doe - doe / 1460 + doe / 36524 - doe / 146096) / 365 with hyoe
  set doy := doe - (365 * yoe + yoe / 4 - yoe / 100) with hdoy
  set mp := (5 * doy + 2) / 153 with hmp
  have hb := civil_bounds_int doe (by omega) (by omega)
  rw [← hyoe, ← hdoy] at hb
  split_ifs with h1 <;> omega

lemma digitChar_isDigit (n : Nat) : (digitChar n).isDigit = true := by
  unfold digitChar
  have hk : n % 10 < 10 := Nat.mod_lt _ (by decide)
  set k := n % 10 with hkdef
  interval_cases k <;> decide

lemma digitVal_digitChar (n : Nat) : digitVal (digitChar n) = n % 10 := by
  unfold digitChar digitVal
  have hk : n % 10 < 10 := Nat.mod_lt _ (by decide)
  set k := n % 10 with hkdef
  interval_cases k <;> decide

lemma parseISO_renderISO (t : Int)
    (hy0 : 0 ≤ (civilFromDays (t / 86400000)).1)
    (hy9 : (civilFromDays (t / 86400000)).1 < 10000) :
    parseISO (renderISO t) = some t := by
  have hms0 : 0 ≤ t % 86400000 := Int.emod_nonneg t (by decide)
  have hms1 : t % 86400000 < 86400000 := Int.emod_lt_of_pos t (by decide)
  have hr := civilFromDays_ranges (t / 86400000)
  have hdays := daysFromCivil_civilFromDays (t / 86400000)
  unfold renderISO parseISO
  dsimp only
  simp only [pad4, pad2, pad3, List.cons_append, List.nil_append]
  set Y := (civilFromDays (t / 86400000)).1.toNat with hY
  set Mo := (civilFromDays (t / 86400000)).2.1.toNat with hMo
  set D := (civilFromDays (t / 86400000)).2.2.toNat with hD
  set ms := (t % 86400000).toNat with hms
  have hYc : (Y : Int) = (civilFromDays (t / 86400000)).1 := by rw [hY]; omega
  have hMoc : (Mo : Int) = (civilFromDays (t / 86400000)).2.1 := by rw [hMo]; omega
  have hDc : (D : Int) = (civilFromDays (t / 86400000)).2.2 := by rw [hD]; omega
  have hmsc : (ms : Int) = t % 86400000 := by rw [hms]; omega
  have hYlt : Y < 10000 := by omega
  have hMolt : 1 ≤ Mo ∧ Mo ≤ 12 := by omega
  have hDlt : 1 ≤ D ∧ D ≤ 31 := by omega
  have hmslt : ms < 86400000 := by omega
  have e1 : ((digitVal (digitChar (Y / 1000)) * 10 + digitVal (digitChar (Y / 100))) * 10 +
      digitVal (digitChar (Y / 10))) * 10 + digitVal (digitChar Y) = Y := by
    simp only [digitVal_digitChar]
    omega
  have e2 : digitVal (digitChar (Mo / 10)) * 10 + digitVal (digitChar Mo) = Mo := by
    simp only [digitVal_digitChar]; omega
  have e3 : digitVal (digitChar (D / 10)) * 10 + digitVal (digitChar D) = D := by
    simp only [digitVal_digitChar]; omega
  have e4 : digitVal (digitChar (ms / 3600000 / 10)) * 10 + digitVal (digitChar (ms / 3600000))
      = ms / 3600000 := by
    simp only [digitVal_digitChar]; omega
  have e5 : digitVal (digitChar (ms % 3600000 / 60000 / 10)) * 10 +
      digitVal (digitChar (ms % 3600000 / 60000)) = ms % 3600000 / 60000 := by
    simp only [digitVal_digitChar]; omega
  have e6 : digitVal (digitChar (ms % 60000 / 1000 / 10)) * 10 +
      digitVal (digitChar (ms % 60000 / 1000)) = ms % 60000 / 1000 := by
    simp only [digitVal_digitChar]; omega
  have e7 : (digitVal (digitChar (ms % 1000 / 100)) * 10 +
      digitVal (digitChar (ms % 1000 / 10))) * 10 + digitVal (digitChar (ms % 1000))
      = ms % 1000 := by
    simp only [digitVal_digitChar]; omega
  simp only [digitChar_isDigit, List.all_cons, List.all_nil, Bool.and_self, and_true,
    and_self, if_pos, e1, e2, e3, e4, e5, e6, e7]
  rw [hYc, hMoc, hDc, hdays]
  have hfin : (↑(ms / 3600000) : Int) * 3600000 + ↑(ms % 3600000 / 60000) * 60000 +
      ↑(ms % 60000 / 1000) * 1000 + ↑(ms % 1000) = (ms : Int) := by omega
  rw [hfin, hmsc]
  rw [if_pos ⟨hMolt.1, hMolt.2, hDlt.1, hDlt.2, by omega, by omega, by omega⟩]
  congr 1
  omega

lemma asOptStr_encodeOptStr (o : Option String) : asOptStr (some (encodeOptStr o)) = some o := by
  cases o <;> rfl

lemma decodeList_asStrElem (l : List String) :
    decodeList asStrElem (l.map JVal.str) = some l := by
  induction l with
  | nil => rfl
  | cons a as ih => simp [decodeList, asStrElem, ih]

lemma decodeFile_encodeFile (f : StoredFile)
    (h1 : yearInRange f.createdAt) (h2 : yearInRange f.updatedAt) :
    decodeFile (encodeFile f) = some f := by
  have hc := parseISO_renderISO f.createdAt h1.1 h1.2
  have hu := parseISO_renderISO f.updatedAt h2.1 h2.2
  unfold decodeFile encodeFile
  simp [jGet, asStr, asOptStr_encodeOptStr, asStrList, decodeList_asStrElem, asDate, hc, hu]

lemma getFiles_saveFiles (st : Storage) (files : List StoredFile)
    (h : ∀ f ∈ files, yearInRange f.createdAt ∧ yearInRange f.updatedAt) :
    getFilesFromLocalStorage (saveFilesToLocalStorage st files) = files := by
  have hdec : decodeFiles (.arr (files.map encodeFile)) = some files := by
    unfold decodeFiles
    induction files with
    | nil => rfl
    | cons f fs ih =>
      have hf := h f (by simp)
      have hfs := ih (fun g hg => h g (by simp [hg]))
      simp only [decodeFiles] at hfs
      simp only [List.map_cons, decodeList, decodeFile_encodeFile f hf.1 hf.2, hfs]
  unfold getFilesFromLocalStorage saveFilesToLocalStorage setItem
  simp [hdec]

/-- C6: saving a file list to the local fallback store and reloading it
yields field-for-field equal records; the `createdAt`/`updatedAt` `Date`s
survive JSON serialization (ISO string out, `new Date` back) as equal
instants. Timestamps are assumed to have years 0-9999, the range the
modelled (non-expanded) ISO format covers. -/
theorem C6_localStorage_roundtrip (st : Storage) (files : List StoredFile)
    (h : ∀ f ∈ files, yearInRange f.createdAt ∧ yearInRange f.updatedAt) :
    getFilesFromLocalStorage (saveFilesToLocalStorage st files) = files :=
  getFiles_saveFiles st files h

/-- C6, witness: the concrete file survives a save/load round trip. -/
theorem C6_localStorage_roundtrip_witness :
    (∀ f ∈ [sampleFile], yearInRange f.createdAt ∧ yearInRange f.updatedAt) ∧
    getFilesFromLocalStorage (saveFilesToLocalStorage emptyStorage [sampleFile]) = [sampleFile] :=
  ⟨by decide, C6_localStorage_roundtrip emptyStorage [sampleFile] (by decide)⟩

lemma decodeFolder_encodeFolder (f : Folder) : decodeFolder (encodeFolder f) = some f := by
  unfold decodeFolder encodeFolder
  simp [jGet, asStr, asNat]

lemma getFolders_saveFolders (st : Storage) (folders : List Folder) :
    getFoldersFromLocalStorage (saveFoldersToLocalStorage st folders) = folders := by
  have hdec : decodeFolders (.arr (folders.map encodeFolder)) = some folders := by
    unfold decodeFolders
    induction folders with
    | nil => rfl
    | cons f fs ih =>
      simp only [decodeFolders] at ih
      simp only [List.map_cons, decodeList, decodeFolder_encodeFolder f, ih]
  unfold getFoldersFromLocalStorage saveFoldersToLocalStorage setItem
  simp [hdec]

lemma getFiles_after_saveFolders (st : Storage) (folders : List Folder) :
    getFilesFromLocalStorage (saveFoldersToLocalStorage st folders) =
      getFilesFromLocalStorage st := by
  unfold getFilesFromLocalStorage saveFoldersToLocalStorage setItem
  rw [if_neg (by decide)]

/-- C7, counterexample: the local fallback `deleteFolderFromLocalStorage`
succeeds but leaves the stored file still referencing the deleted folder id
rather than nulling it. -/
theorem C7_counterexample :
    (deleteFolderFromLocalStorage
        (saveFilesToLocalStorage (saveFoldersToLocalStorage emptyStorage [⟨"f1", "Math", 1⟩])
          [sampleFile]) "f1").2 = .ok () ∧
    (getFilesFromLocalStorage
        (deleteFolderFromLocalStorage
          (saveFilesToLocalStorage (saveFoldersToLocalStorage emptyStorage [⟨"f1", "Math", 1⟩])
            [sampleFile]) "f1").1).map (fun f => f.folderId) = [some "f1"] := by
  constructor
  · rfl
  · decide

/-- C7 (amended): the remote `deleteFolder` (with the schema's `ON DELETE
SET NULL`) removes no file, keeps every file that referenced the folder
with its reference nulled, and leaves other files untouched; the local
fallback `deleteFolderFromLocalStorage` also removes no file, but leaves
the stored files entirely unchanged — their references to the deleted
folder keep dangling instead of becoming null — while removing the folder
record. -/
theorem C7_deleteFolder_detaches (db : RemoteDB) (i : String) (st : Storage) :
    ((deleteFolder db i).files.length = db.files.length ∧
      (∀ f ∈ db.files, f.folderId = some i →
        { f with folderId := none } ∈ (deleteFolder db i).files) ∧
      (∀ f ∈ db.files, f.folderId ≠ some i → f ∈ (deleteFolder db i).files) ∧
      (∀ f ∈ (deleteFolder db i).files, f.folderId ≠ some i) ∧
      (deleteFolder db i).folders = db.folders.filter (fun fo => !(fo.id == i))) ∧
    ((deleteFolderFromLocalStorage st i).2 = .ok () ∧
      getFilesFromLocalStorage (deleteFolderFromLocalStorage st i).1 =
        getFilesFromLocalStorage st ∧
      getFoldersFromLocalStorage (deleteFolderFromLocalStorage st i).1 =
        (getFoldersFromLocalStorage st).filter (fun fo => !(fo.id == i))) := by
  refine ⟨⟨?_, ?_, ?_, ?_, rfl⟩, rfl, ?_, ?_⟩
  · simp [deleteFolder]
  · intro f hf hfid
    simp only [deleteFolder]
    exact List.mem_map.mpr ⟨f, hf, by simp [hfid]⟩
  · intro f hf hfid
    simp only [deleteFolder]
    refine List.mem_map.mpr ⟨f, hf, ?_⟩
    rw [if_neg]
    simp [hfid]
  · intro f hf
    simp only [deleteFolder, List.mem_map] at hf
    obtain ⟨g, _, rfl⟩ := hf
    by_cases hg : g.folderId = some i
    · simp [hg]
    · simp [hg]
  · exact getFiles_after_saveFolders st _
  · exact getFolders_saveFolders st _

lemma updateFirst_eq_none (files : List StoredFile) (i : String) (fd : FileData) (now : Int)
    (h : ∀ f ∈ files, f.id ≠ i) : updateFirst files i fd now = none := by
  induction files with
  | nil => rfl
  | cons f fs ih =>
    have hf : f.id ≠ i := h f (by simp)
    simp only [updateFirst]
    rw [if_neg (by simpa using hf), ih (fun g hg => h g (by simp [hg]))]
    rfl

/-- C9: on a stored list containing no record with the given id,
`updateFileInLocalStorage` returns the `'File not found'` failure and
leaves the storage untouched, while `deleteFileFromLocalStorage` reports
success and leaves the stored file list unchanged. -/
theorem C9_missing_id_behaviour (st : Storage) (files : List StoredFile) (i : String)
    (fd : FileData) (now : Int)
    (hy : ∀ f ∈ files, yearInRange f.createdAt ∧ yearInRange f.updatedAt)
    (h : ∀ f ∈ files, f.id ≠ i) :
    updateFileInLocalStorage (saveFilesToLocalStorage st files) i fd now =
      (saveFilesToLocalStorage st files, .error "File not found") ∧
    (deleteFileFromLocalStorage (saveFilesToLocalStorage st files) i).2 = .ok () ∧
    getFilesFromLocalStorage (deleteFileFromLocalStorage (saveFilesToLocalStorage st files) i).1 =
      getFilesFromLocalStorage (saveFilesToLocalStorage st files) := by
  have hget := getFiles_saveFiles st files hy
  have hfilter : files.filter (fun f => !(f.id == i)) = files := by
    rw [List.filter_eq_self]
    intro f hf
    simpa using h f hf
  refine ⟨?_, rfl, ?_⟩
  · unfold updateFileInLocalStorage
    rw [hget, updateFirst_eq_none files i fd now h]
  · unfold deleteFileFromLocalStorage
    dsimp only
    rw [hget, hfilter]
    exact getFiles_saveFiles _ files hy

/-- C9, witness: concrete storage holding one file, updated/deleted with an
absent id. -/
theorem C9_missing_id_behaviour_witness :
    updateFileInLocalStorage (saveFilesToLocalStorage emptyStorage [sampleFile]) "nope"
        ⟨"t", "pdf", none, none, "d", [], none, none, none, none⟩ 0 =
      (saveFilesToLocalStorage emptyStorage [sampleFile], .error "File not found") ∧
    (deleteFileFromLocalStorage (saveFilesToLocalStorage emptyStorage [sampleFile]) "nope").2 =
      .ok () ∧
    getFilesFromLocalStorage
        (deleteFileFromLocalStorage (saveFilesToLocalStorage emptyStorage [sampleFile]) "nope").1 =
      getFilesFromLocalStorage (saveFilesToLocalStorage emptyStorage [sampleFile]) :=
  C9_missing_id_behaviour emptyStorage [sampleFile] "nope"
    ⟨"t", "pdf", none, none, "d", [], none, none, none, none⟩ 0 (by decide) (by decide)

/-- C8: an invalid username fails with the pattern message and causes no
backend call at all (no uniqueness check, no identity creation, no profile
write); `validUsername` means exactly 3-20 characters from `[a-z0-9_]`; and
a taken username fails with `'Username is already taken'` after only the
uniqueness lookup, never creating the identity. -/
theorem C8_signUp_validation (env : SignUpEnv) (email pw u : String) :
    (validUsername u = false →
      signUp env email pw u =
        (.failure "Username must be 3-20 lowercase characters (letters, numbers, underscores only)",
          [])) ∧
    (validUsername u = true ↔
      (3 ≤ u.length ∧ u.length ≤ 20 ∧ ∀ c ∈ u.data, usernameCharOk c = true)) ∧
    (validUsername u = true → env.usernameTaken (jsToLower u) = true →
      signUp env email pw u =
        (.failure "Username is already taken", [.usernameLookup (jsToLower u)])) := by
  refine ⟨?_, ?_, ?_⟩
  · intro hv
    simp [signUp, hv]
  · simp [validUsername, List.all_eq_true]
    tauto
  · intro hv ht
    simp [signUp, hv, ht]

/-- C8, witness: a malformed username is rejected with no backend call, and
a taken username is rejected after only the lookup. -/
theorem C8_signUp_validation_witness :
    validUsername "Bad Name!" = false ∧
    signUp authEnvA "a@b.c" "pw" "Bad Name!" =
      (.failure "Username must be 3-20 lowercase characters (letters, numbers, underscores only)",
        []) ∧
    validUsername "taken_name" = true ∧
    signUp authEnvA "a@b.c" "pw" "taken_name" =
      (.failure "Username is already taken", [.usernameLookup (jsToLower "taken_name")]) :=
  ⟨by decide,
    (C8_signUp_validation authEnvA "a@b.c" "pw" "Bad Name!").1 (by decide),
    by decide,
    (C8_signUp_validation authEnvA "a@b.c" "pw" "taken_name").2.2 (by decide) (by decide)⟩

/-- C10: `formatFileSize 0` is `'0 Bytes'`; for byte counts in
`[1, 1024^4)` the unit index stays inside the `sizes` array and the result
is the numeric part followed by one of the four unit labels; from `1024^4`
on the index falls outside the array (and the rendered unit degenerates to
`undefined`). -/
theorem C10_formatFileSize_bounds (b : Nat) :
    (formatFileSize 0 = "0 Bytes") ∧
    (1 ≤ b → b < 1024 ^ 4 →
      Nat.log 1024 b < 4 ∧
      ∃ u ∈ sizes, sizes.get? (Nat.log 1024 b) = some u ∧
        formatFileSize b = numPart b ++ " " ++ u) ∧
    (1024 ^ 4 ≤ b →
      4 ≤ Nat.log 1024 b ∧ sizes.get? (Nat.log 1024 b) = none ∧
      formatFileSize b = numPart b ++ " " ++ "undefined") := by
  refine ⟨rfl, ?_, ?_⟩
  · intro hb1 hb2
    have hlog : Nat.log 1024 b < 4 :=
      Nat.log_lt_of_lt_pow (by omega) hb2
    have hget : ∃ u ∈ sizes, sizes.get? (Nat.log 1024 b) = some u := by
      interval_cases h : Nat.log 1024 b <;> simp [sizes]
    obtain ⟨u, hu, hgu⟩ := hget
    refine ⟨hlog, u, hu, hgu, ?_⟩
    unfold formatFileSize
    rw [if_neg (by omega), hgu]
    rfl
  · intro hb
    have hlog : 4 ≤ Nat.log 1024 b := by
      have := (Nat.pow_le_iff_le_log (by omega) (by omega)).mp hb
      omega
    have hget : sizes.get? (Nat.log 1024 b) = none := by
      apply List.get?_eq_none.mpr
      simpa [sizes] using hlog
    refine ⟨hlog, hget, ?_⟩
    unfold formatFileSize
    rw [if_neg (by omega), hget]
    rfl

/-- C10, witness: one terabyte-scale input overflows the unit array while a
kilobyte-scale one stays inside. -/
theorem C10_formatFileSize_bounds_witness :
    (1 ≤ 2048 ∧ 2048 < 1024 ^ 4 ∧ Nat.log 1024 2048 < 4) ∧
    (1024 ^ 4 ≤ 1024 ^ 4 ∧ sizes.get? (Nat.log 1024 (1024 ^ 4)) = none) :=
  ⟨⟨by decide, by norm_num,
      ((C10_formatFileSize_bounds 2048).2.1 (by decide) (by norm_num)).1⟩,
    ⟨le_refl _, ((C10_formatFileSize_bounds (1024 ^ 4)).2.2 (le_refl _)).2.1⟩⟩

/-- C3, witness: after deleting file `1`, the recomputed folder count is
the exact reference count of the remaining files. -/
theorem C3_recalculateFolderCounts_amended_witness :
    (⟨"f2", "Science", 1⟩ : Folder) ∈ (handleDeleteFileApply c3st "1").folders ∧
    (⟨"f2", "Science", 1⟩ : Folder).count =
      (if (⟨"f2", "Science", 1⟩ : Folder).id = "" then 0
        else refCount (handleDeleteFileApply c3st "1").files (⟨"f2", "Science", 1⟩ : Folder).id) :=
  ⟨by decide,
    (C3_recalculateFolderCounts_amended [] []).2.1 c3st "1" ⟨"f2", "Science", 1⟩ (by decide)⟩

/-- C7, witness: on the concrete database, deleting folder `f1` keeps the
referencing file with its folder reference nulled. -/
theorem C7_deleteFolder_detaches_witness :
    (⟨"a", "A", none, "pdf", some "f1", []⟩ : FileRec) ∈ c7db.files ∧
    ({ (⟨"a", "A", none, "pdf", some "f1", []⟩ : FileRec) with folderId := none } ∈
      (deleteFolder c7db "f1").files) :=
  ⟨by decide,
    (C7_deleteFolder_detaches c7db "f1" emptyStorage).1.2.1
      ⟨"a", "A", none, "pdf", some "f1", []⟩ (by decide) (by decide)⟩
